import Mathlib

/-!
# Verification of the ray-tracer core

A shallow embedding of the ray tracer's core (`src/maths`, `src/scene`) in
Lean 4. Floating-point scalars (`f32`/`f64`) are modelled as rationals `ℚ`;
`sqrt` is modelled by `Rat.sqrt`, which agrees with floating-point square
roots on exact squares (every concrete input evaluated below is chosen so
that all magnitudes and discriminants that matter are exact squares).
Object references (`&dyn Traceable`) are modelled as indices into the
scene's node list, and raw-pointer equality of references becomes equality
of indices.
-/

unseal Rat.mul Rat.inv Rat.add Rat.sub

set_option maxRecDepth 40000

namespace RayTracer

/-- `EPSILON` from `maths.rs` (`0.00001`). -/
def EPSILON : ℚ := 1 / 100000

/-- `ApproxEq::is_approx` for scalars: `(self - rhs).abs() < EPSILON`. -/
def isApprox (a b : ℚ) : Bool := |a - b| < EPSILON

/-- Newton's integer square-root iteration with an explicit fuel bound
(the guess decreases strictly on every recursive call, so starting fuel
`n` is never exhausted); structurally recursive so that proofs can
evaluate it. -/
def sqrtIter : ℕ → ℕ → ℕ → ℕ
  | 0, _, guess => guess
  | fuel + 1, n, guess =>
      let next := (guess + n / guess) / 2
      if next < guess then sqrtIter fuel n next else guess

/-- The integer (floor) square root, by the same Newton iteration as
`Nat.sqrt`. -/
def natSqrt (n : ℕ) : ℕ := if n ≤ 1 then n else sqrtIter n n (n / 2)

/-- Models `f64::sqrt` the way `Rat.sqrt` does — the square root of the
numerator over the square root of the denominator — which coincides with
the floating-point square root whenever the argument is the square of a
rational; every concrete input below whose control flow depends on a
square root keeps those arguments exact squares. -/
def fsqrt (q : ℚ) : ℚ := mkRat (natSqrt q.num.toNat) (natSqrt q.den)

/-- `f64::MAX`, the sentinel used by `HitList::closest_hit`; written as a
numeral so that proofs can evaluate comparisons against it (see
`f64MAX_eq` for the closed form). -/
def f64MAX : ℚ := 179769313486231570814527423731704356798070567525844996598917476803157260780028538760589558632766878171540458953514382464234321326889464182768467546703537516986049910576551282076245490090389328944075868508455133942304583236903222948165808559332123348274797826204144723168738177180919299881250404026184124858368

/-- The numeral in `f64MAX` is `(2^53 - 1) * 2^971`, the largest finite
`f64`. -/
theorem f64MAX_eq : f64MAX = (2 ^ 53 - 1) * 2 ^ 971 := by
  rw [f64MAX]
  norm_num

/-- `Color` from `maths/colors.rs`. -/
structure Color where
  r : ℚ
  g : ℚ
  b : ℚ
deriving DecidableEq, Repr

namespace Color

/-- `rgb` constructor. -/
def rgb (r g b : ℚ) : Color := ⟨r, g, b⟩

def BLACK : Color := rgb 0 0 0
def RED : Color := rgb 1 0 0
def WHITE : Color := rgb 1 1 1

/-- `Add for Color`: componentwise. -/
def add (a c : Color) : Color := ⟨a.r + c.r, a.g + c.g, a.b + c.b⟩

/-- `Mul for Color`: componentwise (Hadamard) product. -/
def mul (a c : Color) : Color := ⟨a.r * c.r, a.g * c.g, a.b * c.b⟩

/-- `Mul<f64> for Color`: scalar product. -/
def smul (a : Color) (s : ℚ) : Color := ⟨a.r * s, a.g * s, a.b * s⟩

instance : Add Color := ⟨add⟩
instance : Mul Color := ⟨mul⟩

/-- `PartialEq for Color`: componentwise approximate equality. -/
def approxEq (a c : Color) : Bool :=
  isApprox a.r c.r && isApprox a.g c.g && isApprox a.b c.b

end Color

/-- `Vector` from `maths/vectors.rs`: a tuple in 4-space. -/
structure Vector where
  x : ℚ
  y : ℚ
  z : ℚ
  w : ℚ
deriving DecidableEq, Repr

/-- `point`: (x, y, z) with w = 1. -/
def point (x y z : ℚ) : Vector := ⟨x, y, z, 1⟩

/-- `vec3`: (x, y, z) with w = 0. -/
def vec3 (x y z : ℚ) : Vector := ⟨x, y, z, 0⟩

/-- `vec4`. -/
def vec4 (x y z w : ℚ) : Vector := ⟨x, y, z, w⟩

namespace Vector

/-- `Neg for Vector`. -/
def neg (v : Vector) : Vector := ⟨-v.x, -v.y, -v.z, -v.w⟩

/-- `Add for Vector`. -/
def add (a v : Vector) : Vector := ⟨a.x + v.x, a.y + v.y, a.z + v.z, a.w + v.w⟩

/-- `Sub for Vector`. -/
def sub (a v : Vector) : Vector := ⟨a.x - v.x, a.y - v.y, a.z - v.z, a.w - v.w⟩

/-- `Mul<f64> for Vector`. -/
def smul (a : Vector) (s : ℚ) : Vector := ⟨a.x * s, a.y * s, a.z * s, a.w * s⟩

/-- `Div<f64> for Vector`. -/
def sdiv (a : Vector) (s : ℚ) : Vector := ⟨a.x / s, a.y / s, a.z / s, a.w / s⟩

instance : Neg Vector := ⟨neg⟩
instance : Add Vector := ⟨add⟩
instance : Sub Vector := ⟨sub⟩

/-- `Vector::dot`, including the w component. -/
def dot (a v : Vector) : ℚ := a.x * v.x + a.y * v.y + a.z * v.z + a.w * v.w

/-- `Vector::magnitude`: the square root of the sum of squares of all four
components. -/
def magnitude (v : Vector) : ℚ := fsqrt (v.x * v.x + v.y * v.y + v.z * v.z + v.w * v.w)

/-- `Vector::normalize`: divide every component by the magnitude. -/
def normalize (v : Vector) : Vector := v.sdiv v.magnitude

/-- `Vector::reflect`: `self - normal * 2 * self.dot(normal)`. -/
def reflect (v normal : Vector) : Vector := v.sub ((normal.smul 2).smul (v.dot normal))

/-- `PartialEq for Vector`: componentwise approximate equality. -/
def approxEq (a v : Vector) : Bool :=
  isApprox a.x v.x && isApprox a.y v.y && isApprox a.z v.z && isApprox a.w v.w

end Vector

/-- A 2x2 matrix (`Matrix2x2`), entries indexed as `(row, column)`. -/
structure Matrix2x2 where
  p00 : ℚ
  p01 : ℚ
  p10 : ℚ
  p11 : ℚ
deriving DecidableEq, Repr

/-- `Matrix2x2::determinant`: `a*d - b*c` of the element array `[a,b,c,d]`. -/
def Matrix2x2.determinant (p : Matrix2x2) : ℚ := p.p00 * p.p11 - p.p01 * p.p10

/-- A 3x3 matrix (`Matrix3x3`), entries indexed as `(row, column)`. -/
structure Matrix3x3 where
  n00 : ℚ
  n01 : ℚ
  n02 : ℚ
  n10 : ℚ
  n11 : ℚ
  n12 : ℚ
  n20 : ℚ
  n21 : ℚ
  n22 : ℚ
deriving DecidableEq, Repr

namespace Matrix3x3

/-- `Matrix3x3::to_sub_matrix`: drop the given row and column, keeping the
remaining entries in row-major order. Arguments outside `0..3` never occur
in the source; they map to the zero matrix here. -/
def subMatrix (n : Matrix3x3) : ℕ → ℕ → Matrix2x2
  | 0, 0 => ⟨n.n11, n.n12, n.n21, n.n22⟩
  | 0, 1 => ⟨n.n10, n.n12, n.n20, n.n22⟩
  | 0, 2 => ⟨n.n10, n.n11, n.n20, n.n21⟩
  | 1, 0 => ⟨n.n01, n.n02, n.n21, n.n22⟩
  | 1, 1 => ⟨n.n00, n.n02, n.n20, n.n22⟩
  | 1, 2 => ⟨n.n00, n.n01, n.n20, n.n21⟩
  | 2, 0 => ⟨n.n01, n.n02, n.n11, n.n12⟩
  | 2, 1 => ⟨n.n00, n.n02, n.n10, n.n12⟩
  | 2, 2 => ⟨n.n00, n.n01, n.n10, n.n11⟩
  | _, _ => ⟨0, 0, 0, 0⟩

/-- `Matrix3x3::minor`. -/
def minor (n : Matrix3x3) (row column : ℕ) : ℚ := (n.subMatrix row column).determinant

/-- `Matrix3x3::cofactor`: the minor, negated when `row + column` is odd. -/
def cofactor (n : Matrix3x3) (row column : ℕ) : ℚ :=
  if (row + column) % 2 = 0 then n.minor row column else -(n.minor row column)

/-- `Matrix3x3::determinant`: cofactor expansion along row 0. -/
def determinant (n : Matrix3x3) : ℚ :=
  n.n00 * n.cofactor 0 0 + n.n01 * n.cofactor 0 1 + n.n02 * n.cofactor 0 2

end Matrix3x3

/-- A 4x4 matrix (`Matrix4x4`), entries indexed as `(row, column)`; `mRC`
is the element at row `R`, column `C`, matching `elements[column + row*4]`. -/
structure Matrix4x4 where
  m00 : ℚ
  m01 : ℚ
  m02 : ℚ
  m03 : ℚ
  m10 : ℚ
  m11 : ℚ
  m12 : ℚ
  m13 : ℚ
  m20 : ℚ
  m21 : ℚ
  m22 : ℚ
  m23 : ℚ
  m30 : ℚ
  m31 : ℚ
  m32 : ℚ
  m33 : ℚ
deriving DecidableEq, Repr

namespace Matrix4x4

/-- `Matrix4x4::identity`. -/
def identity : Matrix4x4 := ⟨1, 0, 0, 0, 0, 1, 0, 0, 0, 0, 1, 0, 0, 0, 0, 1⟩

/-- `Matrix4x4::translate` from `maths/transforms.rs`. -/
def translate (x y z : ℚ) : Matrix4x4 := ⟨1, 0, 0, x, 0, 1, 0, y, 0, 0, 1, z, 0, 0, 0, 1⟩

/-- `Matrix4x4::scale` from `maths/transforms.rs`. -/
def scale (x y z : ℚ) : Matrix4x4 := ⟨x, 0, 0, 0, 0, y, 0, 0, 0, 0, z, 0, 0, 0, 0, 1⟩

/-- `Matrix::transpose`: `result[(i, j)] = self[(j, i)]`. -/
def transpose (m : Matrix4x4) : Matrix4x4 :=
  ⟨m.m00, m.m10, m.m20, m.m30,
   m.m01, m.m11, m.m21, m.m31,
   m.m02, m.m12, m.m22, m.m32,
   m.m03, m.m13, m.m23, m.m33⟩

/-- `Mul<Vector> for Matrix4x4`: `result[row] = Σ self[(row, k)] * rhs[k]`. -/
def mulVec (m : Matrix4x4) (v : Vector) : Vector :=
  ⟨m.m00 * v.x + m.m01 * v.y + m.m02 * v.z + m.m03 * v.w,
   m.m10 * v.x + m.m11 * v.y + m.m12 * v.z + m.m13 * v.w,
   m.m20 * v.x + m.m21 * v.y + m.m22 * v.z + m.m23 * v.w,
   m.m30 * v.x + m.m31 * v.y + m.m32 * v.z + m.m33 * v.w⟩

/-- `Matrix4x4::to_sub_matrix`: drop the given row and column, keeping the
remaining entries in row-major order. Arguments outside `0..3` never occur
in the source; they map to the zero matrix here. -/
def subMatrix (m : Matrix4x4) : ℕ → ℕ → Matrix3x3
  | 0, 0 => ⟨m.m11, m.m12, m.m13, m.m21, m.m22, m.m23, m.m31, m.m32, m.m33⟩
  | 0, 1 => ⟨m.m10, m.m12, m.m13, m.m20, m.m22, m.m23, m.m30, m.m32, m.m33⟩
  | 0, 2 => ⟨m.m10, m.m11, m.m13, m.m20, m.m21, m.m23, m.m30, m.m31, m.m33⟩
  | 0, 3 => ⟨m.m10, m.m11, m.m12, m.m20, m.m21, m.m22, m.m30, m.m31, m.m32⟩
  | 1, 0 => ⟨m.m01, m.m02, m.m03, m.m21, m.m22, m.m23, m.m31, m.m32, m.m33⟩
  | 1, 1 => ⟨m.m00, m.m02, m.m03, m.m20, m.m22, m.m23, m.m30, m.m32, m.m33⟩
  | 1, 2 => ⟨m.m00, m.m01, m.m03, m.m20, m.m21, m.m23, m.m30, m.m31, m.m33⟩
  | 1, 3 => ⟨m.m00, m.m01, m.m02, m.m20, m.m21, m.m22, m.m30, m.m31, m.m32⟩
  | 2, 0 => ⟨m.m01, m.m02, m.m03, m.m11, m.m12, m.m13, m.m31, m.m32, m.m33⟩
  | 2, 1 => ⟨m.m00, m.m02, m.m03, m.m10, m.m12, m.m13, m.m30, m.m32, m.m33⟩
  | 2, 2 => ⟨m.m00, m.m01, m.m03, m.m10, m.m11, m.m13, m.m30, m.m31, m.m33⟩
  | 2, 3 => ⟨m.m00, m.m01, m.m02, m.m10, m.m11, m.m12, m.m30, m.m31, m.m32⟩
  | 3, 0 => ⟨m.m01, m.m02, m.m03, m.m11, m.m12, m.m13, m.m21, m.m22, m.m23⟩
  | 3, 1 => ⟨m.m00, m.m02, m.m03, m.m10, m.m12, m.m13, m.m20, m.m22, m.m23⟩
  | 3, 2 => ⟨m.m00, m.m01, m.m03, m.m10, m.m11, m.m13, m.m20, m.m21, m.m23⟩
  | 3, 3 => ⟨m.m00, m.m01, m.m02, m.m10, m.m11, m.m12, m.m20, m.m21, m.m22⟩
  | _, _ => ⟨0, 0, 0, 0, 0, 0, 0, 0, 0⟩

/-- `Matrix4x4::minor`. -/
def minor (m : Matrix4x4) (row column : ℕ) : ℚ := (m.subMatrix row column).determinant

/-- `Matrix4x4::cofactor`: the minor, negated when `row + column` is odd. -/
def cofactor (m : Matrix4x4) (row column : ℕ) : ℚ :=
  if (row + column) % 2 = 0 then m.minor row column else -(m.minor row column)

/-- `Matrix4x4::determinant`: cofactor expansion along row 0. -/
def determinant (m : Matrix4x4) : ℚ :=
  m.m00 * m.cofactor 0 0 + m.m01 * m.cofactor 0 1 +
    m.m02 * m.cofactor 0 2 + m.m03 * m.cofactor 0 3

/-- The matrix built by the success branch of `Matrix4x4::invert`:
`result[(column, row)] = cofactor(row, column) / determinant`. -/
def invertBody (m : Matrix4x4) : Matrix4x4 :=
  let d := m.determinant
  ⟨m.cofactor 0 0 / d, m.cofactor 1 0 / d, m.cofactor 2 0 / d, m.cofactor 3 0 / d,
   m.cofactor 0 1 / d, m.cofactor 1 1 / d, m.cofactor 2 1 / d, m.cofactor 3 1 / d,
   m.cofactor 0 2 / d, m.cofactor 1 2 / d, m.cofactor 2 2 / d, m.cofactor 3 2 / d,
   m.cofactor 0 3 / d, m.cofactor 1 3 / d, m.cofactor 2 3 / d, m.cofactor 3 3 / d⟩

/-- `Matrix4x4::invert`: an explicit error (`none`) exactly on the
`determinant == 0` branch, otherwise the cofactor-based inverse. -/
def invert (m : Matrix4x4) : Option Matrix4x4 :=
  if m.determinant = 0 then none else some m.invertBody

end Matrix4x4

/-- `Ray` from `maths/rays.rs`. -/
structure Ray where
  origin : Vector
  direction : Vector
deriving DecidableEq, Repr

/-- `Ray::position`: `origin + direction * distance`. -/
def Ray.position (r : Ray) (distance : ℚ) : Vector := r.origin.add (r.direction.smul distance)

/-- `Mul<Ray> for Matrix4x4`: transform origin and direction. -/
def Matrix4x4.mulRay (m : Matrix4x4) (r : Ray) : Ray :=
  ⟨m.mulVec r.origin, m.mulVec r.direction⟩

/-- `Texture` from `scene/materials.rs`; only the `Solid` variant is in
scope (no claim exercises `Pattern` sampling). -/
inductive Texture where
  | solid (color : Color)
deriving DecidableEq, Repr

/-- `Texture::sample_at`. -/
def Texture.sampleAt (t : Texture) (_point : Vector) : Color :=
  match t with
  | .solid color => color

/-- `Material` from `scene/materials.rs`, with the field names used at the
call sites in `scene.rs` and `scene/lighting.rs` (`reflectivity`,
`transparency`, `refractivity`). -/
structure Material where
  texture : Texture
  ambient : ℚ
  diffuse : ℚ
  specular : ℚ
  shininess : ℚ
  reflectivity : ℚ
  transparency : ℚ
  refractivity : ℚ
deriving DecidableEq, Repr

/-- `Material::default`: white solid texture, ambient 0.1, diffuse 0.9,
specular 0.9, shininess 200, reflectivity 0, transparency 0,
refractive index 1. -/
def Material.default : Material :=
  ⟨.solid Color.WHITE, 1/10, 9/10, 9/10, 200, 0, 0, 1⟩

/-- Exponentiation by squaring with an explicit fuel bound (the exponent
at least halves on every recursive call, so starting fuel `n` is never
exhausted); structurally recursive and shallow so that proofs can
evaluate it. Computes `x ^ n`. -/
def qpowAux : ℕ → ℚ → ℕ → ℚ
  | 0, _, _ => 1
  | fuel + 1, x, n =>
      if n = 0 then 1
      else
        let half := qpowAux fuel x (n / 2)
        if n % 2 = 0 then half * half else half * half * x

/-- Models `f64::powf` as used in `phong_lighting`: every exponent the
program constructs (`shininess`, conventionally 200) is a non-negative
integer, on which `powf` is iterated multiplication. -/
def powf (x y : ℚ) : ℚ := qpowAux y.num.toNat x y.num.toNat

theorem qpowAux_eq_pow (fuel n : ℕ) (x : ℚ) (hf : n ≤ fuel) : qpowAux fuel x n = x ^ n := by
  induction fuel generalizing n with
  | zero =>
    have hn : n = 0 := by omega
    subst hn
    simp [qpowAux]
  | succ fuel ih =>
    rw [qpowAux]
    rcases Nat.eq_zero_or_pos n with hn | hn
    · simp [hn]
    · have hhalf : n / 2 ≤ fuel := by omega
      rw [if_neg (by omega), ih _ hhalf]
      rcases Nat.mod_two_eq_zero_or_one n with he | ho
      · rw [if_pos he, ← pow_add]
        congr 1
        omega
      · rw [if_neg (by omega), ← pow_add, ← pow_succ]
        congr 1
        omega

/-- `powf` agrees with iterated multiplication on natural exponents. -/
theorem powf_eq_pow (x : ℚ) (n : ℕ) : powf x n = x ^ n := by
  have hnum : ((n : ℚ).num).toNat = n := by simp
  rw [powf, hnum]
  exact qpowAux_eq_pow n n x (le_refl n)

/-- The shape variants: the unit sphere at the origin, and the plane with
its stored normal (`scene/shapes/{spheres,planes}.rs`). -/
inductive ShapeKind where
  | sphere
  | plane (normal : Vector)
deriving DecidableEq, Repr

/-- The discriminant of `Sphere::intersect`'s quadratic, exactly as the
source computes it (`b*b - 4*a*c` with `a = D·D`, `b = 2(O-C)·D`,
`c = (O-C)·(O-C) - 1`). -/
def sphereDiscriminant (ray : Ray) : ℚ :=
  let sphereToRay := ray.origin.sub (point 0 0 0)
  let a := ray.direction.dot ray.direction
  let b := 2 * sphereToRay.dot ray.direction
  let c := sphereToRay.dot sphereToRay - 1
  b * b - 4 * a * c

/-- `Sphere::intersect`: when the discriminant is non-negative, both
quadratic roots are returned (even when negative); otherwise nothing. -/
def sphereIntersect (ray : Ray) : List ℚ :=
  let sphereToRay := ray.origin.sub (point 0 0 0)
  let a := ray.direction.dot ray.direction
  let b := 2 * sphereToRay.dot ray.direction
  let discriminant := sphereDiscriminant ray
  if 0 ≤ discriminant then
    [(-b - fsqrt discriminant) / (2 * a), (-b + fsqrt discriminant) / (2 * a)]
  else []

/-- `Sphere::normal_at`. N.B. faithful to the source: the parameter the
scene node passes in has already been moved to object space, and this
function applies `inverse_transform` to it once more. -/
def sphereNormalAt (worldPoint : Vector) (inverseTransform : Matrix4x4) : Vector :=
  let objectPoint := inverseTransform.mulVec worldPoint
  let objectNormal := objectPoint.sub (point 0 0 0)
  let worldNormal := inverseTransform.transpose.mulVec objectNormal
  Vector.normalize ⟨worldNormal.x, worldNormal.y, worldNormal.z, 0⟩

/-- `Plane::intersect`: no hit when `|direction.y| < 0.00001`, else the
single distance `-origin.y / direction.y`. -/
def planeIntersect (ray : Ray) : List ℚ :=
  if |ray.direction.y| < 1/100000 then []
  else [-ray.origin.y / ray.direction.y]

/-- `Plane::normal_at`: the stored normal, ignoring both the point and the
inverse transform. -/
def planeNormalAt (normal : Vector) (_objectPoint : Vector) (_inverseTransform : Matrix4x4) : Vector :=
  normal

/-- `Shape::intersect` dispatch. -/
def ShapeKind.intersect (s : ShapeKind) (objectRay : Ray) : List ℚ :=
  match s with
  | .sphere => sphereIntersect objectRay
  | .plane _ => planeIntersect objectRay

/-- `Shape::normal_at` dispatch. -/
def ShapeKind.normalAt (s : ShapeKind) (objectPoint : Vector) (inverseTransform : Matrix4x4) : Vector :=
  match s with
  | .sphere => sphereNormalAt objectPoint inverseTransform
  | .plane normal => planeNormalAt normal objectPoint inverseTransform

/-- `SceneNode`: a shape with material, transform and cached inverse. -/
structure SceneNode where
  shape : ShapeKind
  material : Material
  transform : Matrix4x4
  inverse_transform : Matrix4x4
deriving DecidableEq, Repr

namespace SceneNode

/-- `SceneNode::new`: identity transform and inverse, default material. -/
def new (shape : ShapeKind) : SceneNode :=
  ⟨shape, Material.default, Matrix4x4.identity, Matrix4x4.identity⟩

/-- `SceneNode::with_transform`: pre-computes the inverse transform,
falling back to the identity matrix when inversion fails
(`invert().unwrap_or(Matrix4x4::identity())`). -/
def withTransform (node : SceneNode) (transform : Matrix4x4) : SceneNode :=
  { node with
      transform
      inverse_transform := transform.invert.getD Matrix4x4.identity }

/-- `SceneNode::with_material`. -/
def withMaterial (node : SceneNode) (material : Material) : SceneNode :=
  { node with material }

/-- `SceneNode::normal_at` (`Traceable` impl): moves the world point to
object space with the cached inverse, then delegates to the shape. -/
def normalAt (node : SceneNode) (worldPoint : Vector) : Vector :=
  let objectPoint := node.inverse_transform.mulVec worldPoint
  node.shape.normalAt objectPoint node.inverse_transform

/-- `SceneNode::world_to_object`. -/
def worldToObject (node : SceneNode) (worldPoint : Vector) : Vector :=
  node.inverse_transform.mulVec worldPoint

/-- `SceneNode::object_to_world`. -/
def objectToWorld (node : SceneNode) (objectPoint : Vector) : Vector :=
  node.transform.mulVec objectPoint

end SceneNode

/-- `Hit`: the object reference is modelled by the node's index in the
scene's node list, so raw-pointer equality of `&dyn Traceable` becomes
index equality. -/
structure Hit where
  objId : ℕ
  distance : ℚ
deriving DecidableEq, Repr

/-- `PartialEq for Hit`: approximate distance equality and object-pointer
equality. -/
def Hit.approxEq (a h : Hit) : Bool := isApprox a.distance h.distance && (a.objId == h.objId)

/-- `SceneNode::intersect` (`Traceable` impl): intersect in object space
and tag each distance with the node (here, its index `objId`). -/
def SceneNode.intersect (node : SceneNode) (objId : ℕ) (worldRay : Ray) : List Hit :=
  (node.shape.intersect (node.inverse_transform.mulRay worldRay)).map (Hit.mk objId)

/-- Stable insertion of a hit into a distance-sorted list (before the
first strictly larger distance). -/
def insertHit (h : Hit) : List Hit → List Hit
  | [] => [h]
  | x :: xs => if h.distance ≤ x.distance then h :: x :: xs else x :: insertHit h xs

/-- Models the source's stable in-place `sort_by` on distances
(`a.distance.partial_cmp(&b.distance)`): a stable sort produces a unique
result, so any stable sorting algorithm yields the same list. -/
def sortHits : List Hit → List Hit
  | [] => []
  | x :: xs => insertHit x (sortHits xs)

/-- The loop state of `HitList::closest_hit`: `closest_t` starts at
`f64::MAX` and `closest_object` at `None`; each hit with
`0 < t ∧ t < closest_t` replaces the state. -/
def closestHitGo : List Hit → ℚ → Option ℕ → ℚ × Option ℕ
  | [], t, o => (t, o)
  | h :: rest, t, o =>
      if 0 < h.distance ∧ h.distance < t then closestHitGo rest h.distance (some h.objId)
      else closestHitGo rest t o

/-- `HitList::closest_hit`. -/
def closestHit (hits : List Hit) : Option Hit :=
  match closestHitGo hits f64MAX none with
  | (t, some o) => some ⟨o, t⟩
  | (_, none) => none

/-- `PointLight` from `scene/lighting.rs`. -/
structure PointLight where
  position : Vector
  intensity : Color
deriving DecidableEq, Repr

/-- Look up a hit's `&dyn Traceable` object: in this model, the node at
index `i` of the scene's node list (the source dereferences a pointer that
is always valid, so the default is never reached on source-reachable
inputs). -/
def nodeAt (nodes : List SceneNode) (i : ℕ) : SceneNode :=
  nodes.getD i (SceneNode.new .sphere)

/-- `containers.last().map(|it| it.object.material().refractivity).unwrap_or(1.)`. -/
def refrOfLast (nodes : List SceneNode) (containers : List Hit) : ℚ :=
  match containers.getLast? with
  | some it => (nodeAt nodes it.objId).material.refractivity
  | none => 1

/-- The loop of `LightingData::compute_refractivity`, with the running
`containers` stack as accumulator: at the focal hit, `n1` is read from the
top of the stack, the stack is updated (`retain`-remove when an
approx-equal hit is contained, push otherwise), `n2` read, and the loop
breaks; when the list ends without reaching the focal hit both indices
keep their `0.` initial values. -/
def computeRefractivityGo (nodes : List SceneNode) (hit : Hit) :
    List Hit → List Hit → ℚ × ℚ
  | _containers, [] => (0, 0)
  | containers, i :: rest =>
      let isFocal := Hit.approxEq i hit
      let updated :=
        if containers.any (fun it => Hit.approxEq it i) then
          containers.filter (fun it => !(Hit.approxEq it i))
        else containers ++ [i]
      if isFocal then (refrOfLast nodes containers, refrOfLast nodes updated)
      else computeRefractivityGo nodes hit updated rest

/-- `LightingData::compute_refractivity`. -/
def computeRefractivity (nodes : List SceneNode) (hit : Hit) (hits : List Hit) : ℚ × ℚ :=
  computeRefractivityGo nodes hit [] hits

/-- `LightingData` from `scene/lighting.rs` (the object reference is the
node index `objId`). -/
structure LightingData where
  objId : ℕ
  world_position : Vector
  over_position : Vector
  under_position : Vector
  object_position : Vector
  eye : Vector
  normal : Vector
  reflect_direction : Vector
  distance : ℚ
  inside : Bool
  refractivity : ℚ × ℚ
deriving DecidableEq, Repr

/-- `LightingData::calculate`. -/
def LightingData.calculate (nodes : List SceneNode) (ray : Ray) (hit : Hit)
    (hits : List Hit) : LightingData :=
  let world_position := ray.position hit.distance
  let eye := ray.direction.neg
  let normal0 := (nodeAt nodes hit.objId).normalAt world_position
  let over_position := world_position.add (normal0.smul (1/10000))
  let under_position := world_position.sub (normal0.smul (1/10000))
  let object_position := (nodeAt nodes hit.objId).worldToObject over_position
  let reflect_direction := ray.direction.reflect normal0
  let inside := normal0.dot eye < 0
  let normal := if normal0.dot eye < 0 then normal0.neg else normal0
  { objId := hit.objId
    world_position
    over_position
    under_position
    object_position
    eye
    normal
    reflect_direction
    distance := hit.distance
    inside := decide inside
    refractivity := computeRefractivity nodes hit hits }

/-- `phong_lighting` from `scene/lighting.rs`. -/
def phongLighting (light : PointLight) (material : Material)
    (world_position object_position eye normal : Vector) (inShadow : Bool) : Color :=
  let effectiveColor := (material.texture.sampleAt object_position) * light.intensity
  let lightDirection := (light.position.sub world_position).normalize
  let ambient := effectiveColor.smul material.ambient
  let lightDotNormal := lightDirection.dot normal
  let diffuse :=
    if 0 ≤ lightDotNormal then (effectiveColor.smul material.diffuse).smul lightDotNormal
    else Color.BLACK
  let specular :=
    if 0 ≤ lightDotNormal then
      let reflectDirection := (lightDirection.reflect normal).neg
      let reflectDotEye := reflectDirection.dot eye
      if 0 ≤ reflectDotEye then
        (light.intensity.smul material.specular).smul (powf reflectDotEye material.shininess)
      else Color.BLACK
    else Color.BLACK
  if inShadow then ambient else ambient + diffuse + specular

/-- `Scene`. -/
structure Scene where
  ambient_color : Color
  nodes : List SceneNode
  lights : List PointLight
deriving DecidableEq, Repr

/-- `Scene::MAX_DEPTH`. -/
def MAX_DEPTH : ℕ := 5

/-- The concatenation step of `Scene::intersect`: append every node's hits
in node order (the node's position in the list is its `objId`). -/
def enumIntersect (ray : Ray) : List SceneNode → ℕ → List Hit
  | [], _ => []
  | n :: rest, i => n.intersect i ray ++ enumIntersect ray rest (i + 1)

/-- `Scene::intersect`: all nodes' hits, sorted by distance. -/
def Scene.intersectRay (s : Scene) (ray : Ray) : List Hit :=
  sortHits (enumIntersect ray s.nodes 0)

/-- The body of the `Scene::is_shadowed` loop for one light: cast a ray
from the point toward the light and compare the closest hit distance with
the distance to the light. -/
def isShadowedFromLight (s : Scene) (light : PointLight) (pt : Vector) : Bool :=
  let lightVector := light.position.sub pt
  let distance := lightVector.magnitude
  let direction := lightVector.normalize
  match closestHit (s.intersectRay ⟨pt, direction⟩) with
  | some hit => hit.distance < distance
  | none => false

/-- `Scene::is_shadowed`: true when the point is shadowed from any light. -/
def isShadowed (s : Scene) (pt : Vector) : Bool :=
  s.lights.any (fun light => isShadowedFromLight s light pt)

/-- `Scene::reflected_color`, with the recursive trace at `depth + 1`
abstracted as `recur`. -/
def reflectedColor (s : Scene) (recur : Ray → Color) (ld : LightingData) : Color :=
  let material := (nodeAt s.nodes ld.objId).material
  if isApprox material.reflectivity 0 then Color.BLACK
  else (recur ⟨ld.over_position, ld.reflect_direction⟩).smul material.reflectivity

/-- `Scene::refracted_color`, with the recursive trace at `depth + 1`
abstracted as `recur`. Faithful to the source, including its refraction
direction formula `normal * (n_ratio + cos_i - cos_t) - eye * n_ratio`. -/
def refractedColor (s : Scene) (recur : Ray → Color) (depth : ℕ) (ld : LightingData) : Color :=
  if MAX_DEPTH ≤ depth then Color.BLACK
  else
    let material := (nodeAt s.nodes ld.objId).material
    let n1 := ld.refractivity.1
    let n2 := ld.refractivity.2
    if isApprox material.transparency 0 then Color.BLACK
    else
      let nQuot := n1 / n2
      let cosI := ld.eye.dot ld.normal
      let sinT2 := nQuot * nQuot * (1 - cosI * cosI)
      if 1 < sinT2 then Color.BLACK
      else
        let cosT := fsqrt (1 - sinT2)
        let direction := (ld.normal.smul (nQuot + cosI - cosT)).sub (ld.eye.smul nQuot)
        (recur ⟨ld.under_position, direction⟩).smul material.transparency

/-- The tail expression of `Scene::shlick`. -/
def shlickTail (n1 n2 cos : ℚ) : ℚ :=
  let r0 := (n1 - n2) / (n1 + n2)
  r0 * r0 + (1 - r0 * r0) * (1 - cos) ^ 5

/-- `Scene::shlick` (the Schlick reflectance approximation). -/
def shlick (ld : LightingData) : ℚ :=
  let n1 := ld.refractivity.1
  let n2 := ld.refractivity.2
  let cos := ld.eye.dot ld.normal
  if n2 < n1 then
    let n := n1 / n2
    let sinT2 := n * n * (1 - cos * cos)
    if 1 < sinT2 then 1
    else shlickTail n1 n2 (fsqrt (1 - sinT2))
  else shlickTail n1 n2 cos

/-- `Scene::apply_lighting`, with the recursive trace at `depth + 1`
abstracted as `recur`: a single shadow flag is computed for the over
point (against every light) and passed to every light's Phong term. -/
def applyLighting (s : Scene) (recur : Ray → Color) (depth : ℕ) (ray : Ray)
    (hit : Hit) (hits : List Hit) : Color :=
  let ld := LightingData.calculate s.nodes ray hit hits
  let inShadow := isShadowed s ld.over_position
  let surface := s.lights.foldl
    (fun acc light =>
      acc + phongLighting light (nodeAt s.nodes ld.objId).material
        ld.over_position ld.object_position ld.eye ld.normal inShadow)
    s.ambient_color
  let reflected := reflectedColor s recur ld
  let refracted := refractedColor s recur depth ld
  let material := (nodeAt s.nodes hit.objId).material
  if 0 < material.reflectivity ∧ 0 < material.transparency then
    let reflectance := shlick ld
    surface + reflected.smul reflectance + refracted.smul (1 - reflectance)
  else surface + reflected + refracted

/-- `Scene::trace_inner`: returns the ambient color once the depth bound
is reached or when no positive hit exists, and otherwise shades the
closest hit, recursing at `depth + 1`. -/
def traceInner (s : Scene) (ray : Ray) (depth : ℕ) : Color :=
  if _h : MAX_DEPTH ≤ depth then s.ambient_color
  else
    let hits := s.intersectRay ray
    match closestHit hits with
    | some hit => applyLighting s (fun r => traceInner s r (depth + 1)) depth ray hit hits
    | none => s.ambient_color
termination_by MAX_DEPTH - depth
decreasing_by simp [MAX_DEPTH] at *; omega

/-- `Scene::trace`. -/
def Scene.trace (s : Scene) (ray : Ray) : Color := traceInner s ray 0

/-- Modelled from the spec: the per-light shadow variant of
`apply_lighting` the specification describes ("If the biased point is
shadowed ... from this light ... only ambient is kept"): each light's
Phong term receives that light's own shadow test rather than one global
flag. Used only to compare the source behavior against the spec. -/
def applyLightingPerLightSpec (s : Scene) (recur : Ray → Color) (depth : ℕ)
    (ray : Ray) (hit : Hit) (hits : List Hit) : Color :=
  let ld := LightingData.calculate s.nodes ray hit hits
  let surface := s.lights.foldl
    (fun acc light =>
      acc + phongLighting light (nodeAt s.nodes ld.objId).material
        ld.over_position ld.object_position ld.eye ld.normal
        (isShadowedFromLight s light ld.over_position))
    s.ambient_color
  let reflected := reflectedColor s recur ld
  let refracted := refractedColor s recur depth ld
  let material := (nodeAt s.nodes hit.objId).material
  if 0 < material.reflectivity ∧ 0 < material.transparency then
    let reflectance := shlick ld
    surface + reflected.smul reflectance + refracted.smul (1 - reflectance)
  else surface + reflected + refracted

/-! ## Concrete scenes and inputs used by the theorems -/

/-- The singular matrix from the repository's own
`matrix4x4_inversion_should_fail_if_not_possible` test. -/
def singularMatrix : Matrix4x4 :=
  ⟨-4, 2, -2, -3, 9, 6, 2, 6, 0, -5, 1, -5, 0, 0, 0, 0⟩

/-- A unit sphere node translated up by 2. -/
def translatedSphere : SceneNode :=
  (SceneNode.new .sphere).withTransform (Matrix4x4.translate 0 2 0)

/-- A glass sphere: default material with transparency 1 and refractive
index 1.5 (the repository test helper `create_glass_sphere(1.5)`). -/
def glassSphere : SceneNode :=
  (SceneNode.new .sphere).withMaterial
    { Material.default with transparency := 1, refractivity := 3/2 }

/-- An empty scene whose background/ambient color is red. -/
def emptyRedScene : Scene := ⟨Color.RED, [], []⟩

/-- A default unit sphere at the origin. -/
def mainSphere : SceneNode := SceneNode.new .sphere

/-- A unit sphere translated to (0, 0, -5), blocking the minus-z axis. -/
def occluder : SceneNode :=
  (SceneNode.new .sphere).withTransform (Matrix4x4.translate 0 0 (-5))

/-- A white light at (0, 0, -11): occluded from the shading point below. -/
def ceLightA : PointLight := ⟨point 0 0 (-11), Color.WHITE⟩

/-- A white light at (6, 0, -9.0001): visible from the shading point below. -/
def ceLightB : PointLight := ⟨point 6 0 (-(90001/10000)), Color.WHITE⟩

/-- Two spheres and two lights; from the hit shaded below, light A is
occluded by `occluder` and light B is not. -/
def ceScene : Scene := ⟨Color.BLACK, [mainSphere, occluder], [ceLightA, ceLightB]⟩

/-- A ray down the z axis hitting `mainSphere` at distance 2, at the
world point (0, 0, -1) with over point (0, 0, -1.0001). -/
def ceRay : Ray := ⟨point 0 0 (-3), vec3 0 0 1⟩

/-- The scene intersections of `ceRay`. -/
def ceHits : List Hit := ceScene.intersectRay ceRay

/-! ## Helper lemmas -/

theorem vector_approxEq_refl (v : Vector) : v.approxEq v = true := by
  simp [Vector.approxEq, isApprox]
  norm_num [EPSILON]

set_option maxHeartbeats 4000000 in
theorem invertBody_mulVec (m : Matrix4x4) (v : Vector) (hd : m.determinant ≠ 0) :
    m.invertBody.mulVec (m.mulVec v) = v := by
  obtain ⟨m00, m01, m02, m03, m10, m11, m12, m13, m20, m21, m22, m23, m30, m31, m32, m33⟩ := m
  obtain ⟨x, y, z, w⟩ := v
  simp only [Matrix4x4.invertBody, Matrix4x4.mulVec, Matrix4x4.determinant,
    Matrix4x4.cofactor, Matrix4x4.minor, Matrix4x4.subMatrix,
    Matrix3x3.determinant, Matrix3x3.cofactor, Matrix3x3.minor, Matrix3x3.subMatrix,
    Matrix2x2.determinant] at *
  norm_num at *
  refine ⟨?_, ?_, ?_, ?_⟩ <;> field_simp <;> ring

/-! ## Claim C8: sphere intersection -/

/-- C8: `Sphere::intersect` solves the unit-sphere quadratic: a negative
discriminant yields no distances, a non-negative discriminant yields
exactly both roots (negative roots included, tangent rays giving two
equal roots); concretely, origin (0,0,-5) direction (0,0,1) yields
{4, 6}, origin (0,1,-5) yields {5, 5}, origin (0,2,-5) yields nothing,
origin (0,0,0) yields {-1, 1} and origin (0,0,5) yields {-6, -4}. -/
theorem c8_sphere_intersect :
    (∀ ray : Ray, sphereDiscriminant ray < 0 → sphereIntersect ray = []) ∧
    (∀ ray : Ray, 0 ≤ sphereDiscriminant ray → (sphereIntersect ray).length = 2) ∧
    sphereIntersect ⟨point 0 0 (-5), vec3 0 0 1⟩ = [4, 6] ∧
    sphereIntersect ⟨point 0 1 (-5), vec3 0 0 1⟩ = [5, 5] ∧
    sphereIntersect ⟨point 0 2 (-5), vec3 0 0 1⟩ = [] ∧
    sphereIntersect ⟨point 0 0 0, vec3 0 0 1⟩ = [-1, 1] ∧
    sphereIntersect ⟨point 0 0 5, vec3 0 0 1⟩ = [-6, -4] := by
  refine ⟨?_, ?_, by decide, by decide, by decide, by decide, by decide⟩
  · intro ray h
    simp [sphereIntersect, not_le.mpr h]
  · intro ray h
    simp [sphereIntersect, h]

/-- Witness for C8: the universally quantified parts applied to the
tangent-miss ray and the {4, 6} ray. -/
theorem c8_sphere_intersect_witness :
    sphereDiscriminant ⟨point 0 2 (-5), vec3 0 0 1⟩ < 0 ∧
    sphereIntersect ⟨point 0 2 (-5), vec3 0 0 1⟩ = [] ∧
    0 ≤ sphereDiscriminant ⟨point 0 0 (-5), vec3 0 0 1⟩ ∧
    (sphereIntersect ⟨point 0 0 (-5), vec3 0 0 1⟩).length = 2 :=
  ⟨by decide, c8_sphere_intersect.1 _ (by decide), by decide,
    c8_sphere_intersect.2.1 _ (by decide)⟩

/-! ## Claim C9: degenerate rays -/

/-- C9 counterexample: on a zero-length-direction ray, `Sphere::intersect`
does not return "no intersections": the quadratic's `a` coefficient is
unguarded, the discriminant evaluates to 0 and the code pushes two
distances computed by dividing by `2 * a = 0` (NaNs in the floating-point
program, 0 in this rational model) — a list of length 2, not 0. -/
theorem c9_sphere_degenerate_counterexample :
    (sphereIntersect ⟨point 0 0 0, vec4 0 0 0 0⟩).length = 2 := by decide

/-- C9 (amended): for every zero-length-direction ray, `Plane::intersect`
returns no intersections (its `|direction.y| < epsilon` guard also covers
the degenerate case), but `Sphere::intersect` has no epsilon guard on the
quadratic's `a` coefficient: the discriminant is exactly 0 and it returns
two division-by-zero distances instead of none. -/
theorem c9_degenerate_rays (origin : Vector) :
    planeIntersect ⟨origin, vec4 0 0 0 0⟩ = [] ∧
    sphereDiscriminant ⟨origin, vec4 0 0 0 0⟩ = 0 ∧
    (sphereIntersect ⟨origin, vec4 0 0 0 0⟩).length = 2 := by
  have hd : sphereDiscriminant ⟨origin, vec4 0 0 0 0⟩ = 0 := by
    simp [sphereDiscriminant, Vector.dot, Vector.sub, vec4, point]
  refine ⟨?_, hd, ?_⟩
  · norm_num [planeIntersect, vec4, EPSILON]
  · simp [sphereIntersect, hd]

/-! ## Claim C4: singular transforms in SceneNode construction -/

/-- C4: evaluation at the failing input (the singular matrix from the
repository's own inversion-failure test). `Matrix4x4::invert` does report
the non-invertible condition, but `SceneNode::with_transform` swallows it
with `unwrap_or(Matrix4x4::identity())`: construction succeeds and the
node silently uses the identity matrix as its inverse transform —
contradicting the claim that the condition is surfaced and identity is
never substituted. -/
theorem c4_with_transform_masks_singular :
    singularMatrix.determinant = 0 ∧
    singularMatrix.invert = none ∧
    ((SceneNode.new .sphere).withTransform singularMatrix).inverse_transform
      = Matrix4x4.identity := by decide

/-! ## Claim C5: invert fails exactly on zero determinant -/

/-- C5 counterexample: `scale(0.01, 0.01, 0.01)` has determinant `1e-6`,
which is within epsilon (`1e-5`) of zero yet nonzero — and `invert`
succeeds on it, contradicting the claim that every matrix with
`|determinant| < epsilon` fails. -/
theorem c5_invert_epsilon_counterexample :
    |(Matrix4x4.scale (1/100) (1/100) (1/100)).determinant| < EPSILON ∧
    (Matrix4x4.scale (1/100) (1/100) (1/100)).determinant ≠ 0 ∧
    (Matrix4x4.scale (1/100) (1/100) (1/100)).invert ≠ none := by decide

/-- C5 (amended): `Matrix4x4::invert` returns an explicit error exactly
when the determinant is exactly zero (no epsilon tolerance, and identity
is never returned in the error case since no matrix at all is); for every
other matrix it returns a true inverse: applying the result after the
matrix is the identity action on every vector. -/
theorem c5_invert_exact_zero (m : Matrix4x4) :
    (m.invert = none ↔ m.determinant = 0) ∧
    (∀ A, m.invert = some A → ∀ v, A.mulVec (m.mulVec v) = v) := by
  by_cases hd : m.determinant = 0
  · refine ⟨by simp [Matrix4x4.invert, hd], ?_⟩
    intro A hA
    simp [Matrix4x4.invert, hd] at hA
  · refine ⟨by simp [Matrix4x4.invert, hd], ?_⟩
    intro A hA v
    have hbody : A = m.invertBody := by
      simpa [Matrix4x4.invert, hd] using hA.symm
    rw [hbody]
    exact invertBody_mulVec m v hd

/-- Witness for C5: the amended theorem applied to `translate(1, 2, 3)`,
whose inverse is `translate(-1, -2, -3)`. -/
theorem c5_invert_exact_zero_witness :
    ((Matrix4x4.translate 1 2 3).invert = none ↔
      (Matrix4x4.translate 1 2 3).determinant = 0) ∧
    (Matrix4x4.translate (-1) (-2) (-3)).mulVec
      ((Matrix4x4.translate 1 2 3).mulVec (point 1 1 1)) = point 1 1 1 :=
  ⟨(c5_invert_exact_zero (Matrix4x4.translate 1 2 3)).1,
    (c5_invert_exact_zero (Matrix4x4.translate 1 2 3)).2
      (Matrix4x4.translate (-1) (-2) (-3)) (by decide) (point 1 1 1)⟩

/-! ## Claim C10: world/object round trip -/

/-- C10: for every scene node built with an invertible transform
(nonzero determinant) and every point, `world_to_object` after
`object_to_world` returns the point (exactly in this rational model,
hence within the epsilon tolerance of the source's vector equality). -/
theorem c10_world_object_round_trip (shape : ShapeKind) (m : Matrix4x4) (p : Vector)
    (hd : m.determinant ≠ 0) :
    (((SceneNode.new shape).withTransform m).worldToObject
      (((SceneNode.new shape).withTransform m).objectToWorld p)).approxEq p = true := by
  have hinv : ((SceneNode.new shape).withTransform m).inverse_transform = m.invertBody := by
    simp [SceneNode.withTransform, Matrix4x4.invert, hd]
  have htr : ((SceneNode.new shape).withTransform m).transform = m := rfl
  rw [SceneNode.worldToObject, SceneNode.objectToWorld, hinv, htr,
    invertBody_mulVec m p hd]
  exact vector_approxEq_refl p

/-- Witness for C10: the round trip through `translate(5, 3, 2)` at the
point (1, 2, 3). -/
theorem c10_world_object_round_trip_witness :
    (((SceneNode.new .sphere).withTransform (Matrix4x4.translate 5 3 2)).worldToObject
      (((SceneNode.new .sphere).withTransform (Matrix4x4.translate 5 3 2)).objectToWorld
        (point 1 2 3))).approxEq (point 1 2 3) = true :=
  c10_world_object_round_trip .sphere (Matrix4x4.translate 5 3 2) (point 1 2 3) (by decide)

/-! ## Claim C2: normal_at -/

/-- Modelled from the spec: `normal_at` as specified — move the world
point to object space by the inverse transform exactly once, take the
sphere's local normal there, map it back by the transpose of the inverse,
zero w and normalize. Used only to compare the source behavior against
the spec. -/
def specSphereNormalAt (node : SceneNode) (worldPoint : Vector) : Vector :=
  let objectPoint := node.inverse_transform.mulVec worldPoint
  let objectNormal := objectPoint.sub (point 0 0 0)
  let worldNormal := node.inverse_transform.transpose.mulVec objectNormal
  Vector.normalize ⟨worldNormal.x, worldNormal.y, worldNormal.z, 0⟩

/-- C2: evaluation at the failing input. For the sphere translated up by
2 and the surface point (0, 3, 0), the specified pipeline (inverse applied
exactly once) gives the normal (0, 1, 0) — the value the repository's own
`normal_on_translated_sphere` test family expects — but the code applies
the inverse transform twice (`SceneNode::normal_at` converts to object
space and `Sphere::normal_at` converts its argument again), producing
(0, -1, 0), not even approximately the specified normal. -/
theorem c2_normal_at_double_inverse :
    translatedSphere.normalAt (point 0 3 0) = vec3 0 (-1) 0 ∧
    specSphereNormalAt translatedSphere (point 0 3 0) = vec3 0 1 0 ∧
    (translatedSphere.normalAt (point 0 3 0)).approxEq (vec3 0 1 0) = false := by decide

/-! ## Claim C1: refractive-index container stack -/

/-- Modelled from the spec: the refractive-index algorithm as specified —
the "currently inside" stack is keyed by object identity alone: a hit
whose object is already on the stack pops that object (exiting),
otherwise its object is pushed (entering); n1 and n2 are the refractive
indices at the top of the stack before and after the focal hit's update,
1 when the stack is empty. Used only to compare the source behavior
against the spec. -/
def specRefractivityGo (nodes : List SceneNode) (hit : Hit) :
    List ℕ → List Hit → ℚ × ℚ
  | _containers, [] => (0, 0)
  | containers, i :: rest =>
      let topRefr := fun (c : List ℕ) =>
        match c.getLast? with
        | some id => (nodeAt nodes id).material.refractivity
        | none => 1
      let updated :=
        if containers.contains i.objId then containers.filter (fun x => x != i.objId)
        else containers ++ [i.objId]
      if Hit.approxEq i hit then (topRefr containers, topRefr updated)
      else specRefractivityGo nodes hit updated rest

/-- Modelled from the spec: see `specRefractivityGo`. -/
def specRefractivity (nodes : List SceneNode) (hit : Hit) (hits : List Hit) : ℚ × ℚ :=
  specRefractivityGo nodes hit [] hits

/-- C1: evaluation at the failing input. A ray enters and exits a single
glass sphere (refractive index 1.5), giving the sorted hit list
{(A, 2), (A, 6)}; at the exit hit the specified object-keyed stack pops A
and yields [n1, n2] = [1.5, 1.0], but the code's stack membership test is
whole-`Hit` equality (object pointer AND approximate distance), and the
exit hit's distance 6 never matches the entry hit's distance 2 — so A is
pushed a second time instead of popped and the code yields [1.5, 1.5]. -/
theorem c1_refractivity_exit_not_popped :
    computeRefractivity [glassSphere] ⟨0, 6⟩ [⟨0, 2⟩, ⟨0, 6⟩] = (3/2, 3/2) ∧
    specRefractivity [glassSphere] ⟨0, 6⟩ [⟨0, 2⟩, ⟨0, 6⟩] = (3/2, 1) := by decide

/-! ## Claim C3: recursion-depth exhaustion -/

/-- C3 counterexample: a trace invoked at depth `MAX_DEPTH` returns the
scene's background/ambient color — red here — not black, contradicting
the claim that the recursion limit forces black regardless of the
scene's background color. -/
theorem c3_depth_returns_ambient_not_black :
    traceInner emptyRedScene ⟨point 0 0 0, vec3 0 0 1⟩ 5 = Color.RED ∧
    Color.RED ≠ Color.BLACK := by
  constructor
  · rw [traceInner]
    norm_num [MAX_DEPTH, emptyRedScene]
  · decide

/-- C3 (amended): once the recursion depth reaches `MAX_DEPTH` (5), a
trace returns the scene's background/ambient color without intersecting
anything, and `refracted_color` returns black (its own explicit depth
check); so every contribution at the recursion limit is black exactly
when the scene's ambient color is black (the `Scene::new` default). -/
theorem c3_depth_exhaustion (s : Scene) (r : Ray) (d : ℕ) (hd : MAX_DEPTH ≤ d) :
    traceInner s r d = s.ambient_color ∧
    (∀ recur ld, refractedColor s recur d ld = Color.BLACK) ∧
    (s.ambient_color = Color.BLACK → traceInner s r d = Color.BLACK) := by
  have ht : traceInner s r d = s.ambient_color := by
    rw [traceInner]
    simp [hd]
  exact ⟨ht, fun recur ld => by simp [refractedColor, hd], fun hb => ht.trans hb⟩

/-- Witness for C3: the amended theorem at the red scene, depth 5. -/
theorem c3_depth_exhaustion_witness :
    traceInner emptyRedScene ⟨point 0 0 (-5), vec3 0 0 1⟩ 5 = emptyRedScene.ambient_color ∧
    (∀ recur ld, refractedColor emptyRedScene recur 5 ld = Color.BLACK) ∧
    (emptyRedScene.ambient_color = Color.BLACK →
      traceInner emptyRedScene ⟨point 0 0 (-5), vec3 0 0 1⟩ 5 = Color.BLACK) :=
  c3_depth_exhaustion emptyRedScene ⟨point 0 0 (-5), vec3 0 0 1⟩ 5 (by decide)

/-! ## Claim C6: Phong lighting and shadowing -/

/-- C6 counterexample against the per-light shadowing part of the claim:
in `ceScene`, the over point of the hit at distance 2 on `ceRay` is
shadowed from light A (the occluder blocks it) but not from light B — yet
the code computes one global `is_shadowed` flag and drops diffuse and
specular for BOTH lights, returning the two ambient terms
(0.2, 0.2, 0.2); the claim's per-light rule (modelled by
`applyLightingPerLightSpec`) keeps light B's diffuse and specular and
yields a different color. The recursive trace argument is the constant
black function, which is exact here because the material is neither
reflective nor transparent. -/
theorem c6_shadow_not_per_light :
    applyLighting ceScene (fun _ => Color.BLACK) 0 ceRay ⟨0, 2⟩ ceHits
      = Color.rgb (1/5) (1/5) (1/5) ∧
    isShadowedFromLight ceScene ceLightB (point 0 0 (-(10001/10000))) = false ∧
    applyLightingPerLightSpec ceScene (fun _ => Color.BLACK) 0 ceRay ⟨0, 2⟩ ceHits
      ≠ Color.rgb (1/5) (1/5) (1/5) := by decide

/-- C6 (amended): Phong illumination is evaluated once per light and
summed and the ambient term is always applied, but the shadow flag is
global: the over point is tested against every light (`is_shadowed`
returns true when any light is occluded at a hit distance strictly less
than that light's distance) and a true flag drops diffuse and specular
for every light, keeping only ambient. The claim's concrete values hold:
with the default material, a white light at (0,0,-10) and eye and normal
(0,0,-1) give (1.9, 1.9, 1.9), and moving the light behind the surface to
(0,0,10) gives the ambient-only (0.1, 0.1, 0.1). -/
theorem c6_phong_lighting :
    phongLighting ⟨vec3 0 0 (-10), Color.WHITE⟩ Material.default
      (vec3 0 0 0) (vec3 0 0 0) (vec3 0 0 (-1)) (vec3 0 0 (-1)) false
      = Color.rgb (19/10) (19/10) (19/10) ∧
    phongLighting ⟨vec3 0 0 10, Color.WHITE⟩ Material.default
      (vec3 0 0 0) (vec3 0 0 0) (vec3 0 0 (-1)) (vec3 0 0 (-1)) false
      = Color.rgb (1/10) (1/10) (1/10) ∧
    (∀ light material wp op eye n,
      phongLighting light material wp op eye n true
        = ((material.texture.sampleAt op) * light.intensity).smul material.ambient) ∧
    isShadowed ceScene (point 0 0 (-(10001/10000))) = true := by
  refine ⟨by decide, by decide, ?_, by decide⟩
  intro light material wp op eye n
  simp [phongLighting]

/-! ## Claim C7: closest hit -/

theorem closestHitGo_fst_le (l : List Hit) (t : ℚ) (o : Option ℕ) :
    (closestHitGo l t o).1 ≤ t := by
  induction l generalizing t o with
  | nil => simp [closestHitGo]
  | cons h rest ih =>
    rw [closestHitGo]
    split
    · rename_i hcond
      exact le_trans (ih _ _) (le_of_lt hcond.2)
    · exact ih _ _

theorem closestHitGo_pairs (l : List Hit) (t : ℚ) (o : Option ℕ) :
    closestHitGo l t o = (t, o) ∨
      ∃ h ∈ l, closestHitGo l t o = (h.distance, some h.objId) ∧ 0 < h.distance := by
  induction l generalizing t o with
  | nil => left; simp [closestHitGo]
  | cons h rest ih =>
    rw [closestHitGo]
    split
    · rename_i hcond
      rcases ih h.distance (some h.objId) with heq | ⟨h', hm, heq, hp⟩
      · right
        exact ⟨h, List.mem_cons_self h rest, heq, hcond.1⟩
      · right
        exact ⟨h', List.mem_cons_of_mem h hm, heq, hp⟩
    · rcases ih t o with heq | ⟨h', hm, heq, hp⟩
      · left
        exact heq
      · right
        exact ⟨h', List.mem_cons_of_mem h hm, heq, hp⟩

theorem closestHitGo_min (l : List Hit) (x : Hit) (hp : 0 < x.distance) :
    ∀ t o, x ∈ l → x.distance < t → (closestHitGo l t o).1 ≤ x.distance := by
  induction l with
  | nil =>
    intro t o hm _
    cases hm
  | cons h rest ih =>
    intro t o hm hlt
    rw [closestHitGo]
    rcases List.mem_cons.mp hm with hx | hm'
    · subst hx
      split
      · exact closestHitGo_fst_le rest x.distance (some x.objId)
      · rename_i hcond
        exact absurd ⟨hp, hlt⟩ hcond
    · split
      · rename_i hcond
        by_cases hxh : x.distance < h.distance
        · exact ih _ _ hm' hxh
        · exact le_trans (closestHitGo_fst_le rest h.distance (some h.objId)) (not_lt.mp hxh)
      · exact ih _ _ hm' hlt

theorem closestHitGo_some_isSome (l : List Hit) :
    ∀ (t : ℚ) (i : ℕ), (closestHitGo l t (some i)).2.isSome := by
  induction l with
  | nil =>
    intro t i
    simp [closestHitGo]
  | cons h rest ih =>
    intro t i
    rw [closestHitGo]
    split
    · exact ih _ _
    · exact ih _ _

theorem closestHitGo_pos_isSome (l : List Hit) (x : Hit) (hp : 0 < x.distance) :
    ∀ t o, x ∈ l → x.distance < t → (closestHitGo l t o).2.isSome := by
  induction l with
  | nil =>
    intro t o hm _
    cases hm
  | cons h rest ih =>
    intro t o hm hlt
    rw [closestHitGo]
    rcases List.mem_cons.mp hm with hx | hm'
    · subst hx
      split
      · exact closestHitGo_some_isSome rest _ _
      · rename_i hcond
        exact absurd ⟨hp, hlt⟩ hcond
    · split
      · exact closestHitGo_some_isSome rest _ _
      · exact ih _ _ hm' hlt

theorem closestHitGo_id (l : List Hit) :
    ∀ (t : ℚ) (o : Option ℕ), (∀ h ∈ l, ¬(0 < h.distance ∧ h.distance < t)) →
      closestHitGo l t o = (t, o) := by
  induction l with
  | nil =>
    intro t o _
    simp [closestHitGo]
  | cons h rest ih =>
    intro t o hall
    rw [closestHitGo, if_neg (hall h (List.mem_cons_self h rest))]
    exact ih t o (fun h' hm => hall h' (List.mem_cons_of_mem h hm))

/-- C7 counterexample: the original claim is universally quantified over
hit lists, but `closest_hit` starts its running minimum at the sentinel
`f64::MAX` and only accepts hits with `t < closest_t` (strict): a list
holding a single hit at distance exactly `f64::MAX` — strictly positive,
and pushable into a `HitList` like any other f64 — returns `None` even
though a strictly-positive hit exists. -/
theorem c7_closest_hit_max_counterexample :
    (0 : ℚ) < f64MAX ∧ closestHit [⟨0, f64MAX⟩] = none := by decide

/-- C7 (amended): over any hit list whose distances are below `f64::MAX`
(all of them, since a hit at exactly the `f64::MAX` sentinel is ignored
by the loop's strict `t < closest_t` comparison), `closest_hit` returns
nothing exactly when no strictly positive distance exists, and otherwise
returns a hit of the list with strictly positive distance that is least
among all strictly positive distances (hits at non-positive distances
are ignored); concretely, over distances {5, 7, -3, 2} it returns the
hit at distance 2. -/
theorem c7_closest_hit :
    (∀ l : List Hit, (∀ h ∈ l, h.distance < f64MAX) →
      ((closestHit l = none ↔ ∀ h ∈ l, h.distance ≤ 0) ∧
       (∀ x, closestHit l = some x →
          x ∈ l ∧ 0 < x.distance ∧
            ∀ h ∈ l, 0 < h.distance → x.distance ≤ h.distance))) ∧
    closestHit [⟨0, 5⟩, ⟨0, 7⟩, ⟨0, -3⟩, ⟨0, 2⟩] = some ⟨0, 2⟩ := by
  constructor
  · intro l hb
    constructor
    · constructor
      · intro hnone h hm
        by_contra hpos
        push_neg at hpos
        have hsome := closestHitGo_pos_isSome l h hpos f64MAX none hm (hb h hm)
        rw [closestHit] at hnone
        rcases hgo : closestHitGo l f64MAX none with ⟨t, o⟩
        rw [hgo] at hnone hsome
        cases o with
        | none => simp at hsome
        | some i => simp at hnone
      · intro hall
        have hid := closestHitGo_id l f64MAX none (fun h hm hc => absurd hc.1 (not_lt.mpr (hall h hm)))
        rw [closestHit, hid]
    · intro x hx
      rcases closestHitGo_pairs l f64MAX none with heq | ⟨h, hm, heq, hp⟩
      · rw [closestHit, heq] at hx
        simp at hx
      · rw [closestHit, heq] at hx
        have hxh : x = ⟨h.objId, h.distance⟩ := by
          simpa using hx.symm
        have hxeta : (⟨h.objId, h.distance⟩ : Hit) = h := rfl
        refine ⟨?_, ?_, ?_⟩
        · rw [hxh, hxeta]
          exact hm
        · rw [hxh]
          exact hp
        · intro h' hm' hp'
          have hmin := closestHitGo_min l h' hp' f64MAX none hm' (hb h' hm')
          rw [heq] at hmin
          rw [hxh]
          exact hmin
  · decide

/-- Witness for C7: the universal part applied to the {5, 7, -3, 2} list
and its closest hit. -/
theorem c7_closest_hit_witness :
    (⟨0, 2⟩ : Hit) ∈ ([⟨0, 5⟩, ⟨0, 7⟩, ⟨0, -3⟩, ⟨0, 2⟩] : List Hit) ∧
    0 < (⟨0, 2⟩ : Hit).distance ∧
    ∀ h ∈ ([⟨0, 5⟩, ⟨0, 7⟩, ⟨0, -3⟩, ⟨0, 2⟩] : List Hit),
      0 < h.distance → (⟨0, 2⟩ : Hit).distance ≤ h.distance :=
  (c7_closest_hit.1 [⟨0, 5⟩, ⟨0, 7⟩, ⟨0, -3⟩, ⟨0, 2⟩] (by decide)).2
    ⟨0, 2⟩ c7_closest_hit.2

end RayTracer
